import Mathlib

/-!
Shallow embedding of the simulation core of the CRAB model (`model.py`).

Conventions of the embedding:
* Python floats are modelled as exact rationals (`ℚ`).
* The numpy random streams are modelled by passing each draw explicitly:
  `u` stands for a value returned by `uniform()` (so `0 ≤ u < 1` in theorems)
  and `β` for a value returned by `beta(2, 4)` (so `0 ≤ β ≤ 1`).
* Python dictionaries keyed by agent class become functions out of the
  closed `AgentClass` enumeration; per-region dictionaries become functions
  out of `ℕ`.
* Fallible operations (`list.remove` raising `ValueError`, a `KeyError` on a
  missing dictionary key, the explicit `raise ValueError` in
  `add_subsidiary`) are modelled with `Except String`.
* The agent classes themselves (`CRAB_agents.py`), the government internals
  (`government.py`) and the staged scheduler (`schedule.py`) are not part of
  `src/`; the model state they maintain (regional aggregates, the scheduler
  time counter, the best-ranked capital firm of `get_best_cap`) is carried
  as plain data fields, and the staged execution of agent behaviours is an
  arbitrary state transformer parameter of `model_step`.
-/

namespace CRAB

/-- Closed enumeration of the agent classifications of the model
(`CapitalFirm`, `ConsumptionGoodFirm`, `ServiceFirm`, `Household`,
`Government` in `CRAB_agents.py` / `government.py`).  In the source,
`ConsumptionGoodFirm` and `ServiceFirm` are the two subclasses of
`ConsumptionFirm`. -/
inductive AgentClass : Type
  | CapitalFirm
  | ConsumptionGoodFirm
  | ServiceFirm
  | Household
  | Government
deriving DecidableEq, Repr

/-- The firm classifications: exactly the classes satisfying
`isinstance(firm, CapitalFirm) or isinstance(firm, ConsumptionFirm)`. -/
def isFirmClass : AgentClass → Bool
  | AgentClass.CapitalFirm => true
  | AgentClass.ConsumptionGoodFirm => true
  | AgentClass.ServiceFirm => true
  | AgentClass.Household => false
  | AgentClass.Government => false

/-- A supplier's published terms (the `brochure` dictionary of a capital
firm, with keys `prod` and `price`). -/
structure Brochure : Type where
  prod : ℚ
  price : ℚ
deriving DecidableEq, Repr

/-- An agent of the model, carrying the economic state that the simulation
core of `model.py` reads or writes.  Fields that only the (external) agent
classes touch are carried opaquely.  The supplier/client back-references are
not represented: no operation of `model.py` whose behaviour is claimed here
observes them. -/
structure Agent : Type where
  klass : AgentClass
  region : ℕ
  net_worth : ℚ
  market_share : ℚ
  prod : ℚ
  old_prod : ℚ
  competitiveness : ℚ
  wage : ℚ
  price : ℚ
  cap_out_ratio : ℚ
  flood_depths : List (ℕ × ℚ)
  brochure : Brochure
  sales : ℚ
  init_n_machines : ℕ
  init_cap_amount : ℤ
  lifetime : ℕ
deriving DecidableEq, Repr

/-- Modelled from the spec: the regional government (`government.py` is not
under `src/`).  Its aggregates (`avg_net_worth`, `top_prod`,
`capital_new_firm`, `avg_comp_norm`), its per-step counters (`bailout_cost`,
`new_firms_resources`) and the best-ranked capital firm returned by
`get_best_cap()` are carried as plain data; `model.py` only reads the
aggregates and updates the two counters. -/
structure Government : Type where
  avg_net_worth : ℚ
  bailout_cost : ℚ
  new_firms_resources : ℚ
  top_prod : ℚ
  capital_new_firm : AgentClass → ℚ
  avg_comp_norm : AgentClass → ℚ
  best_cap : Agent

/-- The state of `CRAB_Model` that the simulation core manipulates.
`N_FIRMS` and `FLOOD_WHEN` are the module-level configuration constants
(initial firm counts per region per type, flood timestep → return period);
`time` is the scheduler's step counter (`self.schedule.time`). -/
structure CRAB_Model : Type where
  n_regions : ℕ
  N_FIRMS : ℕ → AgentClass → ℕ
  FLOOD_WHEN : List (ℕ × ℕ)
  firms : ℕ → AgentClass → List Agent
  governments : ℕ → Government
  firms_to_remove : ℕ → List Agent
  flood_now : Bool
  flood_return : ℕ
  time : ℕ

/-- The reference configuration constant `N_FIRMS` of `model.py`
(125 capital firms, 200 consumption-good firms, 300 service firms in the
single region 0). -/
def N_FIRMS_const : ℕ → AgentClass → ℕ := fun _ t =>
  match t with
  | AgentClass.CapitalFirm => 125
  | AgentClass.ConsumptionGoodFirm => 200
  | AgentClass.ServiceFirm => 300
  | _ => 0

/-- The reference flood schedule constant `FLOOD_WHEN = {40: 1000, 80: 100}`
of `model.py`. -/
def FLOOD_WHEN_const : List (ℕ × ℕ) := [(40, 1000), (80, 100)]

/-- The agent-type enumeration built in `CRAB_Model.__init__`:
`list(N_FIRMS[0].keys()) + [Household] + [Government]`. -/
def agent_types : List AgentClass :=
  [AgentClass.CapitalFirm, AgentClass.ConsumptionGoodFirm,
   AgentClass.ServiceFirm, AgentClass.Household, AgentClass.Government]

/-- Seed assignment of the per-agent-type random streams
(`self.RNGs[agent_class] = np.random.default_rng(random_seed + i)` for
`i, agent_class in enumerate(agent_types)`), generic in the element type
exactly as the loop is. -/
def mkRNG_seeds {α : Type} (random_seed : ℤ) (types : List α) : List (α × ℤ) :=
  types.enum.map (fun p => (p.2, random_seed + (p.1 : ℤ)))

/-- Seed of the dedicated adaptation stream:
`np.random.default_rng(random_seed + i + 1)` where `i` is the final value of
the loop variable, i.e. `len(agent_types) - 1`.  (For an empty list the
Python loop variable would be unbound; theorems assume a nonempty list.) -/
def adaptation_seed {α : Type} (random_seed : ℤ) (types : List α) : ℤ :=
  random_seed + ((types.length - 1 : ℕ) : ℤ) + 1

/-- Round-half-to-even on exact rationals: the semantics of both Python's
builtin `round` and `numpy.around` (modulo floating-point representation,
which this embedding abstracts away). -/
def roundHalfEven (q : ℚ) : ℤ :=
  if q - Rat.floor q < 1/2 then Rat.floor q
  else if 1/2 < q - Rat.floor q then Rat.floor q + 1
  else if Rat.floor q % 2 = 0 then Rat.floor q else Rat.floor q + 1

/-- Rounding as `np.around(q, 3)`: three decimal places, half to even. -/
def np_around3 (q : ℚ) : ℚ := (roundHalfEven (q * 1000) : ℚ) / 1000

/-- Pointwise update of the per-region government map. -/
def updGov (g : ℕ → Government) (r : ℕ) (v : Government) : ℕ → Government :=
  fun s => if s = r then v else g s

/-- Pointwise update of one (region, firm-class) bucket of the firms map. -/
def updFirms (f : ℕ → AgentClass → List Agent) (r : ℕ) (t : AgentClass)
    (v : List Agent) : ℕ → AgentClass → List Agent :=
  fun s u => if s = r ∧ u = t then v else f s u

/-- The successful result of `CRAB_Model.remove_firm`: the region's
government accrues the firm's net worth as bailout cost and the firm leaves
its type bucket. -/
def remove_result (m : CRAB_Model) (firm : Agent) : CRAB_Model :=
  let gov := m.governments firm.region
  { m with
    governments := updGov m.governments firm.region
      { gov with bailout_cost := gov.bailout_cost + firm.net_worth },
    firms := updFirms m.firms firm.region firm.klass
      ((m.firms firm.region firm.klass).erase firm) }

/-- The operation `CRAB_Model.remove_firm`.  A non-firm class has no bucket in the
`self.firms[region]` dictionary (`KeyError` in Python); removing a firm
that is not in its bucket raises `ValueError` (`list.remove`). -/
def remove_firm (m : CRAB_Model) (firm : Agent) : Except String CRAB_Model :=
  if isFirmClass firm.klass = false then
    Except.error "KeyError: agent class has no firm bucket"
  else if firm ∈ m.firms firm.region firm.klass then
    Except.ok (remove_result m firm)
  else
    Except.error "ValueError: list.remove(x): x not in list"

/-- Registration tail of `CRAB_Model.add_subsidiary`: the subsidiary joins
its (region, class) bucket and the government's new-firm resource counter
increases by the government's average net worth. -/
def register_sub (m : CRAB_Model) (firm : Agent) (sub : Agent) : CRAB_Model :=
  let gov := m.governments firm.region
  { m with
    firms := updFirms m.firms sub.region sub.klass
      ((m.firms sub.region sub.klass) ++ [sub]),
    governments := updGov m.governments firm.region
      { gov with new_firms_resources := gov.new_firms_resources + gov.avg_net_worth } }

/-- The subsidiary record built on the capital-producer branch of
`CRAB_Model.add_subsidiary` (`u` is the `uniform()` draw, `β` the
`beta(2, 4)` draw from the failed firm's type stream).  Fields that the
source call does not pass (they are filled in by the firm constructors in
`CRAB_agents.py`, outside `src/`) are given inert values:
`competitiveness := 0`, `cap_out_ratio := firm.cap_out_ratio` (a per-class
constant), `brochure := best_cap.brochure`. -/
def cap_sub (m : CRAB_Model) (firm : Agent) (u β : ℚ) : Agent :=
  let gov := m.governments firm.region
  let net_worth : ℚ := max gov.avg_net_worth 1 * ((9/10 - 1/10) * u + 1/10)
  let capital_amount : ℤ :=
    roundHalfEven (gov.capital_new_firm firm.klass * firm.cap_out_ratio)
  let brochure := gov.best_cap.brochure
  let fraction_prod : ℚ := 1 + (-(75/1000)) + β * (75/1000 - (-(75/1000)))
  { klass := AgentClass.CapitalFirm, region := firm.region,
    net_worth := net_worth,
    market_share := (1 : ℚ) / (m.N_FIRMS firm.region AgentClass.CapitalFirm : ℚ),
    prod := brochure.prod,
    old_prod := np_around3 (gov.top_prod * fraction_prod),
    competitiveness := 0, wage := firm.wage, price := firm.price,
    cap_out_ratio := firm.cap_out_ratio,
    flood_depths := firm.flood_depths, brochure := brochure,
    sales := (capital_amount : ℚ), init_n_machines := 1,
    init_cap_amount := capital_amount, lifetime := 0 }

/-- The subsidiary record built on the consumption branch of
`CRAB_Model.add_subsidiary` (shared by `ConsumptionGoodFirm` and
`ServiceFirm`, as in the source's single `isinstance(firm, ConsumptionFirm)`
branch).  The source performs no beta draw here.  `competitiveness` is the
region's average normalized competitiveness for the firm's type, assigned
right after construction exactly as the source does. -/
def cons_sub (m : CRAB_Model) (firm : Agent) (u : ℚ) : Agent :=
  let gov := m.governments firm.region
  let net_worth : ℚ := max gov.avg_net_worth 1 * ((9/10 - 1/10) * u + 1/10)
  let capital_amount : ℤ :=
    roundHalfEven (gov.capital_new_firm firm.klass * firm.cap_out_ratio)
  let brochure := gov.best_cap.brochure
  { klass := firm.klass, region := firm.region,
    net_worth := net_worth, market_share := 0,
    prod := brochure.prod, old_prod := brochure.prod,
    competitiveness := gov.avg_comp_norm firm.klass,
    wage := firm.wage, price := firm.price,
    cap_out_ratio := firm.cap_out_ratio,
    flood_depths := firm.flood_depths, brochure := brochure,
    sales := 0, init_n_machines := 1,
    init_cap_amount := capital_amount, lifetime := 0 }

/-- The operation `CRAB_Model.add_subsidiary`: dispatch on the failed firm's
classification, build the subsidiary, register it, and charge the
government's new-firm resource counter; any non-firm classification raises
the source's `ValueError`. -/
def add_subsidiary (m : CRAB_Model) (firm : Agent) (u β : ℚ) :
    Except String (Agent × CRAB_Model) :=
  match firm.klass with
  | AgentClass.CapitalFirm =>
    Except.ok (cap_sub m firm u β, register_sub m firm (cap_sub m firm u β))
  | AgentClass.ConsumptionGoodFirm =>
    Except.ok (cons_sub m firm u, register_sub m firm (cons_sub m firm u))
  | AgentClass.ServiceFirm =>
    Except.ok (cons_sub m firm u, register_sub m firm (cons_sub m firm u))
  | _ => Except.error "Firm type not recognized in function add_subsidiary()."

/-- One iteration of the removal loop in `CRAB_Model.step`:
`remove_firm(firm)` followed by `add_subsidiary(firm)`, with the pair of
random draws that `add_subsidiary` consumes. -/
def process_removal (m : CRAB_Model) (q : Agent × ℚ × ℚ) :
    Except String CRAB_Model :=
  match remove_firm m q.1 with
  | Except.error e => Except.error e
  | Except.ok m1 =>
    match add_subsidiary m1 q.1 q.2.1 q.2.2 with
    | Except.error e => Except.error e
    | Except.ok (_, m2) => Except.ok m2

/-- The inner `for firm in self.firms_to_remove[region]` loop of
`CRAB_Model.step`, over a queue paired with the random draws each
replacement consumes. -/
def drain_region (m : CRAB_Model) (queue : List (Agent × ℚ × ℚ)) :
    Except String CRAB_Model :=
  match queue with
  | [] => Except.ok m
  | q :: rest =>
    match process_removal m q with
    | Except.error e => Except.error e
    | Except.ok m1 => drain_region m1 rest

/-- The per-region body of the removal loop of `CRAB_Model.step`: drain the
region's queue, then reset the government's per-step counters to zero and
empty the queue. -/
def region_block (m : CRAB_Model) (region : ℕ) (draws : List (ℚ × ℚ)) :
    Except String CRAB_Model :=
  match drain_region m ((m.firms_to_remove region).zip draws) with
  | Except.error e => Except.error e
  | Except.ok m1 =>
    let gov := m1.governments region
    Except.ok { m1 with
      governments := updGov m1.governments region
        { gov with bailout_cost := 0, new_firms_resources := 0 },
      firms_to_remove := fun r => if r = region then [] else m1.firms_to_remove r }

/-- The `for region in REGIONS` removal loop of `CRAB_Model.step`, over an
explicit list of regions. -/
def removal_loop (m : CRAB_Model) (regions : List ℕ)
    (draws : ℕ → List (ℚ × ℚ)) : Except String CRAB_Model :=
  match regions with
  | [] => Except.ok m
  | r :: rest =>
    match region_block m r (draws r) with
    | Except.error e => Except.error e
    | Except.ok m1 => removal_loop m1 rest draws

/-- The whole removal phase of `CRAB_Model.step`: the removal loop over
`REGIONS = range(N_REGIONS)`. -/
def removal_phase (m : CRAB_Model) (draws : ℕ → List (ℚ × ℚ)) :
    Except String CRAB_Model :=
  removal_loop m (List.range m.n_regions) draws

/-- The flood-shock determination at the top of `CRAB_Model.step`: look the
current scheduler time up in the shock schedule; if present set the flag and
the return period, otherwise clear the flag and zero the return period. -/
def shock_phase (m : CRAB_Model) : CRAB_Model :=
  match m.FLOOD_WHEN.lookup m.time with
  | some rp => { m with flood_now := true, flood_return := rp }
  | none => { m with flood_now := false, flood_return := 0 }

/-- The operation `CRAB_Model.step`: shock determination, then `self.schedule.step()`
(the staged execution of agent behaviours, which lives outside `src/` and is
taken as an arbitrary state transformer `sched`), then the removal phase.
`self.datacollector.collect(self)` observes the returned state. -/
def model_step (sched : CRAB_Model → CRAB_Model) (m : CRAB_Model)
    (draws : ℕ → List (ℚ × ℚ)) : Except String CRAB_Model :=
  removal_phase (sched (shock_phase m)) draws

/-- The operation `CRAB_Model.get_firms`: returns the concatenation of all firm-type
buckets of the region (`itertools.chain(*(self.firms[region].values()))`,
the dictionary holding exactly the three firm classes in insertion order);
the `attr` parameter is never read. -/
def get_firms {α : Type} (m : CRAB_Model) (region : ℕ) (attr : Option α) :
    List Agent :=
  m.firms region AgentClass.CapitalFirm ++
  m.firms region AgentClass.ConsumptionGoodFirm ++
  m.firms region AgentClass.ServiceFirm

/-- Success test for an `Except` result. -/
def is_ok {ε α : Type} : Except ε α → Bool
  | Except.ok _ => true
  | Except.error _ => false

/-- The subsidiary produced by `add_subsidiary`, when it succeeds. -/
def sub_of (m : CRAB_Model) (firm : Agent) (u β : ℚ) : Option Agent :=
  match add_subsidiary m firm u β with
  | Except.ok (sub, _) => some sub
  | Except.error _ => none

/-- The government of region `r` after a successful `add_subsidiary`. -/
def gov_after_sub (m : CRAB_Model) (firm : Agent) (u β : ℚ) (r : ℕ) :
    Option Government :=
  match add_subsidiary m firm u β with
  | Except.ok (_, m1) => some (m1.governments r)
  | Except.error _ => none

/-- Bailout-cost counter of region `r` in an `Except`-wrapped model state. -/
def bailout_after (e : Except String CRAB_Model) (r : ℕ) : Option ℚ :=
  match e with
  | Except.ok m => some ((m.governments r).bailout_cost)
  | Except.error _ => none

/-- New-firm-resources counter of region `r` in an `Except`-wrapped model
state. -/
def nfr_after (e : Except String CRAB_Model) (r : ℕ) : Option ℚ :=
  match e with
  | Except.ok m => some ((m.governments r).new_firms_resources)
  | Except.error _ => none

/-- Length of the (region, class) firm bucket in an `Except`-wrapped model
state. -/
def bucket_len (e : Except String CRAB_Model) (r : ℕ) (t : AgentClass) :
    Option ℕ :=
  match e with
  | Except.ok m => some ((m.firms r t).length)
  | Except.error _ => none

/-- Concrete brochure used by the scenario fixtures. -/
def brochure0 : Brochure := { prod := 2, price := 3 }

/-- Concrete capital firm `fB`: the surviving capital producer of the
scenario of C2 (also the government's best-ranked capital firm). -/
def fB : Agent :=
  { klass := AgentClass.CapitalFirm, region := 0, net_worth := 150,
    market_share := 1, prod := 2, old_prod := 2, competitiveness := 0,
    wage := 1, price := 3, cap_out_ratio := 1, flood_depths := [],
    brochure := brochure0, sales := 0, init_n_machines := 20,
    init_cap_amount := 3, lifetime := 4 }

/-- Concrete capital firm `fA`: the bankrupt capital producer of the
scenario of C2, with net worth driven to `-10`. -/
def fA : Agent := { fB with net_worth := -10, lifetime := 7 }

/-- Concrete government fixture with average net worth 100 and fresh
per-step counters. -/
def gov0 : Government :=
  { avg_net_worth := 100, bailout_cost := 0, new_firms_resources := 0,
    top_prod := 2, capital_new_firm := fun _ => 2,
    avg_comp_norm := fun _ => 1, best_cap := fB }

/-- Concrete scenario model: one region holding exactly two capital
producers `fA` and `fB` (`N_FIRMS` records 2 initial capital producers),
with the bankrupt `fA` queued for removal. -/
def m2 : CRAB_Model :=
  { n_regions := 1,
    N_FIRMS := fun _ t => match t with
      | AgentClass.CapitalFirm => 2
      | AgentClass.ConsumptionGoodFirm => 200
      | AgentClass.ServiceFirm => 300
      | _ => 0,
    FLOOD_WHEN := FLOOD_WHEN_const,
    firms := fun r t =>
      if r = 0 ∧ t = AgentClass.CapitalFirm then [fA, fB] else [],
    governments := fun _ => gov0,
    firms_to_remove := fun r => if r = 0 then [fA] else [],
    flood_now := false, flood_return := 0, time := 0 }

/-- Scenario model for the shock schedule `{5: 100}` at step 5. -/
def mShock5 : CRAB_Model := { m2 with FLOOD_WHEN := [(5, 100)], time := 5 }

/-- Scenario model for the shock schedule `{5: 100}` at step 6. -/
def mShock6 : CRAB_Model := { mShock5 with time := 6 }

lemma updGov_same (g : ℕ → Government) (r : ℕ) (v : Government) :
    updGov g r v r = v := by
  simp [updGov]

lemma updGov_ne (g : ℕ → Government) (r : ℕ) (v : Government) (s : ℕ)
    (h : s ≠ r) : updGov g r v s = g s := by
  simp [updGov, h]

lemma updFirms_same (f : ℕ → AgentClass → List Agent) (r : ℕ) (t : AgentClass)
    (v : List Agent) : updFirms f r t v r t = v := by
  simp [updFirms]

lemma updFirms_ne (f : ℕ → AgentClass → List Agent) (r : ℕ) (t : AgentClass)
    (v : List Agent) (s : ℕ) (u : AgentClass) (h : ¬(s = r ∧ u = t)) :
    updFirms f r t v s u = f s u := by
  simp only [updFirms, if_neg h]

/-- C10: `get_firms(region, attr)` ignores its `attr` parameter entirely:
for every region and every value of `attr` it returns the concatenation of
all firm-type buckets of that region, identical to `get_firms(region)` with
`attr` left at its default `None`. -/
theorem C10_get_firms_ignores_attr :
    ∀ (α : Type) (m : CRAB_Model) (region : ℕ) (attr : Option α),
      get_firms m region attr = get_firms m region (none : Option α) ∧
      get_firms m region attr =
        m.firms region AgentClass.CapitalFirm ++
        m.firms region AgentClass.ConsumptionGoodFirm ++
        m.firms region AgentClass.ServiceFirm :=
  fun _ _ _ _ => ⟨rfl, rfl⟩

/-- C7: at every step the flood flag is set (with the scheduled return
period) exactly when the current time is a key of the shock schedule, and
is cleared (with return period 0) otherwise; with schedule `{5: 100}` the
flag is true with return period 100 at step 5 and false at step 6. -/
theorem C7_flood_flag :
    (∀ m : CRAB_Model,
      (shock_phase m).flood_now = (m.FLOOD_WHEN.lookup m.time).isSome ∧
      (shock_phase m).flood_return = (m.FLOOD_WHEN.lookup m.time).getD 0) ∧
    (shock_phase mShock5).flood_now = true ∧
    (shock_phase mShock5).flood_return = 100 ∧
    (shock_phase mShock6).flood_now = false ∧
    (shock_phase mShock6).flood_return = 0 := by
  refine ⟨fun m => ?_, by decide, by decide, by decide, by decide⟩
  cases h : m.FLOOD_WHEN.lookup m.time <;> simp [shock_phase, h]

/-- C6: `add_subsidiary` succeeds exactly on the three recognized firm
classifications and fails fast (the `ValueError` of the source) on any
other agent classification. -/
theorem C6_unrecognized_firm_error :
    ∀ (m : CRAB_Model) (firm : Agent) (u β : ℚ),
      is_ok (add_subsidiary m firm u β) = true ↔
        (firm.klass = AgentClass.CapitalFirm ∨
         firm.klass = AgentClass.ConsumptionGoodFirm ∨
         firm.klass = AgentClass.ServiceFirm) := by
  intro m firm u β
  cases hk : firm.klass <;> simp [add_subsidiary, is_ok, hk]

/-- C4: the `i`-th agent type in the enumeration order receives the stream
seed `base_seed + i`, and the adaptation stream receives the seed
`base_seed + i_max + 1 = base_seed + length`; in particular a registry of
6 agent types with base seed 0 gets stream seeds 0..5 and adaptation
seed 6. -/
theorem C4_stream_seeds {α : Type} (s : ℤ) (types : List α)
    (hne : types ≠ []) :
    (mkRNG_seeds s types).map Prod.snd =
      (List.range types.length).map (fun i : ℕ => s + (i : ℤ)) ∧
    adaptation_seed s types = s + (types.length : ℤ) := by
  constructor
  · rw [mkRNG_seeds, List.map_map]
    have h1 : (Prod.snd ∘ fun p : ℕ × α => (p.2, s + (p.1 : ℤ))) =
        (fun i : ℕ => s + (i : ℤ)) ∘ Prod.fst := rfl
    rw [h1, ← List.map_map, List.enum_map_fst]
  · have hlen : 0 < types.length := List.length_pos.mpr hne
    unfold adaptation_seed
    omega

/-- Witness for C4: six agent types with base seed 0 give the per-type
stream seeds 0,1,2,3,4,5 and adaptation stream seed 6. -/
theorem C4_stream_seeds_witness :
    (mkRNG_seeds (0 : ℤ) (List.range 6)).map Prod.snd = [0, 1, 2, 3, 4, 5] ∧
    adaptation_seed (0 : ℤ) (List.range 6) = 6 := by
  have h := C4_stream_seeds (0 : ℤ) (List.range 6) (by decide)
  exact ⟨h.1.trans (by decide), h.2.trans (by decide)⟩

lemma sub_of_net_worth (m : CRAB_Model) (firm : Agent) (u β : ℚ)
    (hf : isFirmClass firm.klass = true) :
    (sub_of m firm u β).map Agent.net_worth =
      some (max (m.governments firm.region).avg_net_worth 1 *
        ((9/10 - 1/10) * u + 1/10)) := by
  cases hk : firm.klass <;>
    simp_all [sub_of, add_subsidiary, cap_sub, cons_sub, isFirmClass]

/-- C1 counterexample: `uniform()` draws from the half-open interval
`[0, 1)` and can return 0, in which case the net-worth fraction is exactly
`0.1` — the left endpoint, which the claimed open interval `(0.1, 0.9)`
excludes.  Concretely, with draw 0 the subsidiary's net worth is exactly
`0.1 * max(avg_net_worth, 1)`, contradicting a strictly positive distance
from the lower bound. -/
theorem C1_open_interval_counterexample :
    (sub_of m2 fA 0 (1/3)).map Agent.net_worth = some 10 ∧
    (1/10 : ℚ) * max (m2.governments fA.region).avg_net_worth 1 = 10 ∧
    ¬((1/10 : ℚ) * max (m2.governments fA.region).avg_net_worth 1 < 10) := by
  have hM : max (m2.governments fA.region).avg_net_worth 1 = 100 := by
    rw [max_eq_left (show (1:ℚ) ≤ _ by norm_num [m2, gov0])]
    norm_num [m2, gov0]
  refine ⟨?_, ?_, ?_⟩
  · rw [sub_of_net_worth m2 fA 0 (1/3) (by decide), hM]
    norm_num
  · rw [hM]; norm_num
  · rw [hM]; norm_num

/-- C1 (amended): the net-worth fraction lies in the half-open interval
`[0.1, 0.9)` (the left endpoint is attainable), so every subsidiary's net
worth `nw` satisfies `0.1 * max(avg_net_worth, 1) ≤ nw` and
`nw < 0.9 * max(avg_net_worth, 1)` — in particular the claimed weak bounds
hold. -/
theorem C1_net_worth_bounds (m : CRAB_Model) (firm : Agent) (u β : ℚ)
    (h0 : 0 ≤ u) (h1 : u < 1) (hf : isFirmClass firm.klass = true) :
    ∃ sub, sub_of m firm u β = some sub ∧
      (1/10) * max (m.governments firm.region).avg_net_worth 1 ≤ sub.net_worth ∧
      sub.net_worth < (9/10) * max (m.governments firm.region).avg_net_worth 1 ∧
      sub.net_worth ≤ (9/10) * max (m.governments firm.region).avg_net_worth 1 := by
  have h := sub_of_net_worth m firm u β hf
  rw [Option.map_eq_some'] at h
  obtain ⟨sub, hs, hnw⟩ := h
  have hM : (1 : ℚ) ≤ max (m.governments firm.region).avg_net_worth 1 :=
    le_max_right _ _
  have hMpos : (0 : ℚ) < max (m.governments firm.region).avg_net_worth 1 :=
    lt_of_lt_of_le zero_lt_one hM
  refine ⟨sub, hs, ?_, ?_, ?_⟩ <;> rw [show sub.net_worth = _ from hnw] <;>
    nlinarith [mul_pos hMpos (show (0:ℚ) < 1 - u by linarith)]

/-- Witness for C1: a concrete subsidiary whose net worth satisfies the
amended bounds. -/
theorem C1_net_worth_bounds_witness :
    ∃ sub, sub_of m2 fA (1/2) (1/3) = some sub ∧
      (1/10) * max (m2.governments fA.region).avg_net_worth 1 ≤ sub.net_worth ∧
      sub.net_worth < (9/10) * max (m2.governments fA.region).avg_net_worth 1 ∧
      sub.net_worth ≤ (9/10) * max (m2.governments fA.region).avg_net_worth 1 :=
  C1_net_worth_bounds m2 fA (1/2) (1/3) (by norm_num) (by norm_num) (by decide)

/-- C5: a subsidiary of a capital producer has the best capital supplier's
brochure productivity as its productivity, a historical productivity of
`round3(top_prod * (1 + x_low + β * (x_up - x_low)))` with
`x_low = -0.075`, `x_up = 0.075` (that is, `round3(top_prod *
(0.925 + 0.15 β))`), market share `1 / (initial count of capital producers
in its region)`, and lifetime counter 0. -/
theorem C5_capital_subsidiary (m : CRAB_Model) (firm : Agent) (u β : ℚ)
    (hk : firm.klass = AgentClass.CapitalFirm) :
    ∃ sub, sub_of m firm u β = some sub ∧
      sub.prod = (m.governments firm.region).best_cap.brochure.prod ∧
      sub.old_prod =
        np_around3 ((m.governments firm.region).top_prod * (37/40 + (3/20) * β)) ∧
      sub.market_share = 1 / (m.N_FIRMS firm.region AgentClass.CapitalFirm : ℚ) ∧
      sub.lifetime = 0 := by
  simp only [sub_of, add_subsidiary, hk]
  refine ⟨_, rfl, rfl, ?_, rfl, rfl⟩
  show np_around3 _ = np_around3 _
  congr 1
  ring

/-- Witness for C5: the concrete capital-producer subsidiary of the
scenario model. -/
theorem C5_capital_subsidiary_witness :
    ∃ sub, sub_of m2 fA (1/2) (1/3) = some sub ∧
      sub.prod = (m2.governments fA.region).best_cap.brochure.prod ∧
      sub.old_prod =
        np_around3 ((m2.governments fA.region).top_prod * (37/40 + (3/20) * (1/3))) ∧
      sub.market_share = 1 / (m2.N_FIRMS fA.region AgentClass.CapitalFirm : ℚ) ∧
      sub.lifetime = 0 :=
  C5_capital_subsidiary m2 fA (1/2) (1/3) rfl

lemma updGov_updGov (g : ℕ → Government) (r : ℕ) (v w : Government) :
    updGov (updGov g r v) r w = updGov g r w := by
  funext s
  by_cases h : s = r <;> simp [updGov, h]

lemma updFirms_updFirms (f : ℕ → AgentClass → List Agent) (r : ℕ)
    (t : AgentClass) (v w : List Agent) :
    updFirms (updFirms f r t v) r t w = updFirms f r t w := by
  funext s u
  by_cases h : s = r ∧ u = t <;> simp [updFirms, h]

lemma remove_firm_ok (m : CRAB_Model) (f : Agent)
    (hf : isFirmClass f.klass = true) (hm : f ∈ m.firms f.region f.klass) :
    remove_firm m f = Except.ok (remove_result m f) := by
  simp [remove_firm, hf, hm]

lemma remove_firm_eq_ok {m : CRAB_Model} {f : Agent} {m1 : CRAB_Model}
    (h : remove_firm m f = Except.ok m1) :
    isFirmClass f.klass = true ∧ f ∈ m.firms f.region f.klass ∧
    m1 = remove_result m f := by
  unfold remove_firm at h
  split at h
  next hfc => simp at h
  next hfc =>
    split at h
    next hmem =>
      injection h with h1
      exact ⟨by simpa using hfc, hmem, h1.symm⟩
    next hmem => simp at h

lemma add_subsidiary_ok (m : CRAB_Model) (f : Agent) (u β : ℚ)
    (hf : isFirmClass f.klass = true) :
    ∃ sub, add_subsidiary m f u β = Except.ok (sub, register_sub m f sub) ∧
      sub.klass = f.klass ∧ sub.region = f.region := by
  cases hk : f.klass
  case Household => simp [isFirmClass, hk] at hf
  case Government => simp [isFirmClass, hk] at hf
  case CapitalFirm =>
    exact ⟨cap_sub m f u β, by simp [add_subsidiary, hk], rfl, rfl⟩
  case ConsumptionGoodFirm =>
    exact ⟨cons_sub m f u, by simp [add_subsidiary, hk], hk, rfl⟩
  case ServiceFirm =>
    exact ⟨cons_sub m f u, by simp [add_subsidiary, hk], hk, rfl⟩

lemma process_removal_eq_ok {m : CRAB_Model} {q : Agent × ℚ × ℚ}
    {m2 : CRAB_Model} (h : process_removal m q = Except.ok m2) :
    ∃ m1 sub, remove_firm m q.1 = Except.ok m1 ∧
      add_subsidiary m1 q.1 q.2.1 q.2.2 = Except.ok (sub, m2) := by
  unfold process_removal at h
  split at h
  next e heq => exact Except.noConfusion h
  next m1 heq =>
    split at h
    next e heq2 => exact Except.noConfusion h
    next sub m2' heq2 =>
      injection h with h1
      exact ⟨m1, sub, heq, h1 ▸ heq2⟩

/-- One removal-and-replacement step, fully described: given that the queued
firm is of a firm class and currently in its bucket, the step succeeds; the
bucket of the firm's (region, class) loses the firm and gains the
subsidiary, the region's government accrues the firm's net worth as bailout
cost and the average net worth as new-firm resources, and everything else
(other buckets, other governments, the removal queues, the region count,
the configuration) is unchanged. -/
lemma process_removal_ok (m : CRAB_Model) (q : Agent × ℚ × ℚ)
    (hf : isFirmClass q.1.klass = true)
    (hm : q.1 ∈ m.firms q.1.region q.1.klass) :
    ∃ sub m2, process_removal m q = Except.ok m2 ∧
      sub.klass = q.1.klass ∧ sub.region = q.1.region ∧
      m2.firms = updFirms m.firms q.1.region q.1.klass
        (((m.firms q.1.region q.1.klass).erase q.1) ++ [sub]) ∧
      (m2.governments q.1.region).bailout_cost =
        (m.governments q.1.region).bailout_cost + q.1.net_worth ∧
      (m2.governments q.1.region).new_firms_resources =
        (m.governments q.1.region).new_firms_resources +
          (m.governments q.1.region).avg_net_worth ∧
      (m2.governments q.1.region).avg_net_worth =
        (m.governments q.1.region).avg_net_worth ∧
      (∀ s, s ≠ q.1.region → m2.governments s = m.governments s) ∧
      m2.firms_to_remove = m.firms_to_remove ∧
      m2.n_regions = m.n_regions ∧ m2.N_FIRMS = m.N_FIRMS := by
  obtain ⟨sub, hadd, hsk, hsr⟩ :=
    add_subsidiary_ok (remove_result m q.1) q.1 q.2.1 q.2.2 hf
  refine ⟨sub, register_sub (remove_result m q.1) q.1 sub, ?_, hsk, hsr,
    ?_, ?_, ?_, ?_, ?_, rfl, rfl, rfl⟩
  · simp [process_removal, remove_firm_ok m q.1 hf hm, hadd]
  · show (register_sub (remove_result m q.1) q.1 sub).firms = _
    simp only [register_sub, remove_result, hsr, hsk]
    rw [updFirms_same, updFirms_updFirms]
  · simp [register_sub, remove_result, updGov_same]
  · simp [register_sub, remove_result, updGov_same]
  · simp [register_sub, remove_result, updGov_same]
  · intro s hs
    simp [register_sub, remove_result, updGov_ne _ _ _ _ hs]

/-- Any agent other than the removed firm that is in its own bucket stays in
its own bucket across one removal-and-replacement step. -/
lemma mem_preserved {m m2 : CRAB_Model} {q0 sub g : Agent}
    (hfirms : m2.firms = updFirms m.firms q0.region q0.klass
      (((m.firms q0.region q0.klass).erase q0) ++ [sub]))
    (hne : g ≠ q0) (hg : g ∈ m.firms g.region g.klass) :
    g ∈ m2.firms g.region g.klass := by
  rw [hfirms]
  by_cases hc : g.region = q0.region ∧ g.klass = q0.klass
  · rw [hc.1, hc.2, updFirms_same]
    refine List.mem_append_left _ ((List.mem_erase_of_ne hne).mpr ?_)
    rw [← hc.1, ← hc.2]
    exact hg
  · rw [updFirms_ne _ _ _ _ _ _ hc]
    exact hg

/-- C3: draining a removal queue of distinct, live, firm-class agents
pairs every `remove_firm` with an `add_subsidiary` of the same type in the
same region, so after the drain every (region, type) firm bucket has
exactly the length it had before the step's bankruptcies. -/
theorem C3_population_conservation :
    ∀ (qs : List (Agent × ℚ × ℚ)) (m : CRAB_Model),
      ((qs.map fun p => p.1).Nodup) →
      (∀ q ∈ qs, isFirmClass q.1.klass = true) →
      (∀ q ∈ qs, q.1 ∈ m.firms q.1.region q.1.klass) →
      ∀ r t, bucket_len (drain_region m qs) r t = some ((m.firms r t).length) := by
  intro qs
  induction qs with
  | nil => intro m _ _ _ r t; rfl
  | cons q qs ih =>
    intro m hnd hfc hmem r t
    obtain ⟨sub, m2, hpr, hsk, hsr, hfirms, -, -, -, -, hq, hn, hN⟩ :=
      process_removal_ok m q (hfc q (List.mem_cons_self q qs))
        (hmem q (List.mem_cons_self q qs))
    rw [show ((q :: qs).map fun p => p.1) = q.1 :: (qs.map fun p => p.1)
      from rfl] at hnd
    have hhead : q.1 ∉ (qs.map fun p => p.1) := (List.nodup_cons.mp hnd).1
    have htail : (qs.map fun p => p.1).Nodup := (List.nodup_cons.mp hnd).2
    have hne : ∀ p ∈ qs, p.1 ≠ q.1 := by
      intro p hp hEq
      exact hhead (hEq ▸ List.mem_map_of_mem (fun x => x.1) hp)
    have hmem2 : ∀ p ∈ qs, p.1 ∈ m2.firms p.1.region p.1.klass := by
      intro p hp
      exact mem_preserved hfirms (hne p hp) (hmem p (List.mem_cons_of_mem q hp))
    have hdrain : drain_region m (q :: qs) = drain_region m2 qs := by
      simp [drain_region, hpr]
    rw [hdrain,
      ih m2 htail (fun p hp => hfc p (List.mem_cons_of_mem q hp)) hmem2 r t]
    congr 1
    rw [hfirms]
    by_cases hc : r = q.1.region ∧ t = q.1.klass
    · rw [hc.1, hc.2, updFirms_same, List.length_append,
        List.length_erase_of_mem (hmem q (List.mem_cons_self q qs))]
      have hpos : 0 < (m.firms q.1.region q.1.klass).length :=
        List.length_pos.mpr
          (List.ne_nil_of_mem (hmem q (List.mem_cons_self q qs)))
      simp only [List.length_singleton]
      omega
    · rw [updFirms_ne _ _ _ _ _ _ hc]

/-- Witness for C3: draining the scenario queue keeps the capital-producer
bucket of region 0 at its pre-bankruptcy length 2. -/
theorem C3_population_conservation_witness :
    bucket_len (drain_region m2 [(fA, 1/2, 1/3)]) 0 AgentClass.CapitalFirm =
      some 2 := by
  rw [C3_population_conservation [(fA, 1/2, 1/3)] m2 (by decide) (by decide)
    (by intro q hq; simp only [List.mem_singleton] at hq; subst hq
        simp [m2, fA, fB]) 0 AgentClass.CapitalFirm]
  simp [m2, fA, fB]

/-- Counter accumulation over a whole queue drain: the bailout counter of
region `r` picks up the net worth of every removed firm and the new-firm
resource counter picks up one average net worth per replacement, while the
average itself, other regions' governments, the queues and the region count
are untouched. -/
lemma drain_region_spec (r : ℕ) :
    ∀ (qs : List (Agent × ℚ × ℚ)) (m : CRAB_Model),
      (∀ q ∈ qs, q.1.region = r) →
      ((qs.map fun p => p.1).Nodup) →
      (∀ q ∈ qs, isFirmClass q.1.klass = true) →
      (∀ q ∈ qs, q.1 ∈ m.firms q.1.region q.1.klass) →
      ∃ m1, drain_region m qs = Except.ok m1 ∧
        (m1.governments r).bailout_cost =
          (m.governments r).bailout_cost + ((qs.map fun p => p.1.net_worth).sum) ∧
        (m1.governments r).new_firms_resources =
          (m.governments r).new_firms_resources +
            (qs.length : ℚ) * (m.governments r).avg_net_worth ∧
        (m1.governments r).avg_net_worth = (m.governments r).avg_net_worth ∧
        (∀ s, s ≠ r → m1.governments s = m.governments s) ∧
        m1.firms_to_remove = m.firms_to_remove ∧
        m1.n_regions = m.n_regions := by
  intro qs
  induction qs with
  | nil =>
    intro m _ _ _ _
    exact ⟨m, rfl, by simp, by simp, rfl, fun _ _ => rfl, rfl, rfl⟩
  | cons q qs ih =>
    intro m hreg hnd hfc hmem
    obtain ⟨sub, m2, hpr, hsk, hsr, hfirms, hgb, hgn, hga, hgoth, hq, hn, hN⟩ :=
      process_removal_ok m q (hfc q (List.mem_cons_self q qs))
        (hmem q (List.mem_cons_self q qs))
    rw [show ((q :: qs).map fun p => p.1) = q.1 :: (qs.map fun p => p.1)
      from rfl] at hnd
    have hhead : q.1 ∉ (qs.map fun p => p.1) := (List.nodup_cons.mp hnd).1
    have htail : (qs.map fun p => p.1).Nodup := (List.nodup_cons.mp hnd).2
    have hne : ∀ p ∈ qs, p.1 ≠ q.1 := by
      intro p hp hEq
      exact hhead (hEq ▸ List.mem_map_of_mem (fun x => x.1) hp)
    have hmem2 : ∀ p ∈ qs, p.1 ∈ m2.firms p.1.region p.1.klass := by
      intro p hp
      exact mem_preserved hfirms (hne p hp) (hmem p (List.mem_cons_of_mem q hp))
    obtain ⟨m1, hd, hb, hnf, hav, hoth, hqq, hnn⟩ :=
      ih m2 (fun p hp => hreg p (List.mem_cons_of_mem q hp)) htail
        (fun p hp => hfc p (List.mem_cons_of_mem q hp)) hmem2
    have hr0 : q.1.region = r := hreg q (List.mem_cons_self q qs)
    rw [← hr0] at hb hnf hav hoth
    refine ⟨m1, ?_, ?_, ?_, ?_, ?_, hqq.trans hq, hnn.trans hn⟩
    · simp [drain_region, hpr, hd]
    · rw [← hr0, hb, hgb]
      simp only [List.map_cons, List.sum_cons]
      ring
    · rw [← hr0, hnf, hgn, hga]
      simp only [List.length_cons]
      push_cast
      ring
    · rw [← hr0, hav, hga]
    · intro s hs
      rw [← hr0] at hs
      exact (hoth s hs).trans (hgoth s hs)

/-- A successful drain of a queue of own-region firms leaves other
regions' governments, all removal queues and the region count unchanged. -/
lemma drain_region_pres {r : ℕ} :
    ∀ {qs : List (Agent × ℚ × ℚ)} {m m1 : CRAB_Model},
      (∀ q ∈ qs, q.1.region = r) →
      drain_region m qs = Except.ok m1 →
      (∀ s, s ≠ r → m1.governments s = m.governments s) ∧
      m1.firms_to_remove = m.firms_to_remove ∧
      m1.n_regions = m.n_regions := by
  intro qs
  induction qs with
  | nil =>
    intro m m1 _ h
    injection h with h1
    subst h1
    exact ⟨fun _ _ => rfl, rfl, rfl⟩
  | cons q qs ih =>
    intro m m1 hreg h
    cases hp : process_removal m q with
    | error e =>
      rw [show drain_region m (q :: qs) =
        (match process_removal m q with
          | Except.error e => Except.error e
          | Except.ok m1 => drain_region m1 qs) from rfl, hp] at h
      exact Except.noConfusion h
    | ok m2 =>
      rw [show drain_region m (q :: qs) =
        (match process_removal m q with
          | Except.error e => Except.error e
          | Except.ok m1 => drain_region m1 qs) from rfl, hp] at h
      obtain ⟨m1', sub', hrm, hadd⟩ := process_removal_eq_ok hp
      obtain ⟨hf, hmem, -⟩ := remove_firm_eq_ok hrm
      obtain ⟨sub, m2', hpr', hsk, hsr, hfirms, hgb, hgn, hga, hgoth, hq, hn, hN⟩ :=
        process_removal_ok m q hf hmem
      rw [hp] at hpr'
      injection hpr' with h2
      subst h2
      obtain ⟨hoth, hqq, hnn⟩ :=
        ih (fun p hp' => hreg p (List.mem_cons_of_mem q hp')) h
      refine ⟨?_, hqq.trans hq, hnn.trans hn⟩
      intro s hs
      have hs' : s ≠ q.1.region := by
        rw [hreg q (List.mem_cons_self q qs)]
        exact hs
      exact (hoth s hs).trans (hgoth s hs')

/-- The per-region block of `CRAB_Model.step`: after a successful drain of
a queue of own-region firms, the region's two per-step counters read zero,
its queue is empty, and other regions' governments and queues are
untouched. -/
lemma region_block_spec {m : CRAB_Model} {r : ℕ} {d : List (ℚ × ℚ)}
    {mb : CRAB_Model}
    (hreg : ∀ f ∈ m.firms_to_remove r, f.region = r)
    (h : region_block m r d = Except.ok mb) :
    (mb.governments r).bailout_cost = 0 ∧
    (mb.governments r).new_firms_resources = 0 ∧
    (∀ s, s ≠ r → mb.governments s = m.governments s) ∧
    (∀ s, s ≠ r → mb.firms_to_remove s = m.firms_to_remove s) ∧
    mb.firms_to_remove r = [] ∧ mb.n_regions = m.n_regions := by
  unfold region_block at h
  split at h
  next e heq => exact Except.noConfusion h
  next m1 heq =>
    injection h with h1
    subst h1
    have hzip : ∀ p ∈ (m.firms_to_remove r).zip d, p.1.region = r := by
      intro p hp
      exact hreg p.1 (List.of_mem_zip hp).1
    obtain ⟨hoth, hqq, hnn⟩ := drain_region_pres hzip heq
    refine ⟨by simp [updGov_same], by simp [updGov_same], ?_, ?_, by simp, hnn⟩
    · intro s hs
      show updGov m1.governments r _ s = _
      rw [updGov_ne _ _ _ _ hs]
      exact hoth s hs
    · intro s hs
      show (if s = r then [] else m1.firms_to_remove s) = _
      rw [if_neg hs, hqq]

/-- The removal loop over a list of regions: every processed region ends
with both per-step government counters at zero, and regions outside the
list keep their government and queue. -/
lemma removal_loop_spec :
    ∀ (regions : List ℕ) (m m' : CRAB_Model) (draws : ℕ → List (ℚ × ℚ)),
      (∀ r ∈ regions, ∀ f ∈ m.firms_to_remove r, f.region = r) →
      removal_loop m regions draws = Except.ok m' →
      (∀ r ∈ regions, (m'.governments r).bailout_cost = 0 ∧
        (m'.governments r).new_firms_resources = 0) ∧
      m'.n_regions = m.n_regions ∧
      (∀ s, s ∉ regions →
        m'.governments s = m.governments s ∧
        m'.firms_to_remove s = m.firms_to_remove s) := by
  intro regions
  induction regions with
  | nil =>
    intro m m' draws _ h
    injection h with h1
    subst h1
    exact ⟨by simp, rfl, fun _ _ => ⟨rfl, rfl⟩⟩
  | cons r rest ih =>
    intro m m' draws hq h
    cases hb : region_block m r (draws r) with
    | error e =>
      rw [show removal_loop m (r :: rest) draws =
        (match region_block m r (draws r) with
          | Except.error e => Except.error e
          | Except.ok m1 => removal_loop m1 rest draws) from rfl, hb] at h
      exact Except.noConfusion h
    | ok m1 =>
      rw [show removal_loop m (r :: rest) draws =
        (match region_block m r (draws r) with
          | Except.error e => Except.error e
          | Except.ok m1 => removal_loop m1 rest draws) from rfl, hb] at h
      obtain ⟨hb0, hn0, hgoth, hqoth, hqr, hnreg⟩ :=
        region_block_spec (hq r (List.mem_cons_self r rest)) hb
      have hq1 : ∀ s ∈ rest, ∀ f ∈ m1.firms_to_remove s, f.region = s := by
        intro s hs f hf
        by_cases hsr : s = r
        · subst hsr
          rw [hqr] at hf
          exact absurd hf (List.not_mem_nil f)
        · rw [hqoth s hsr] at hf
          exact hq s (List.mem_cons_of_mem r hs) f hf
      obtain ⟨hzero, hn, hpres⟩ := ih m1 m' draws hq1 h
      refine ⟨?_, hn.trans hnreg, ?_⟩
      · intro r' hr'
        rcases List.mem_cons.mp hr' with hEq | hmem
        · subst hEq
          by_cases hin : r' ∈ rest
          · exact hzero r' hin
          · rw [(hpres r' hin).1]
            exact ⟨hb0, hn0⟩
        · exact hzero r' hmem
      · intro s hs
        have hs1 : s ≠ r := fun hEq => hs (hEq ▸ List.mem_cons_self r rest)
        have hs2 : s ∉ rest := fun hin => hs (List.mem_cons_of_mem r hin)
        obtain ⟨hg, hfr⟩ := hpres s hs2
        exact ⟨hg.trans (hgoth s hs1), hfr.trans (hqoth s hs1)⟩

/-- C9: at the moment the reporter observes the state at the end of a
successful `step()`, every region's government has bailout cost 0 and
new-firm resources 0, because the removal phase resets both counters after
draining each region's queue and before output collection — the reporter
can never observe the step's accumulated totals. -/
theorem C9_collect_sees_zero (sched : CRAB_Model → CRAB_Model)
    (m : CRAB_Model) (draws : ℕ → List (ℚ × ℚ)) (r : ℕ)
    (hq : ∀ s, ∀ f ∈ (sched (shock_phase m)).firms_to_remove s, f.region = s)
    (hr : r < (sched (shock_phase m)).n_regions)
    (hok : is_ok (model_step sched m draws) = true) :
    bailout_after (model_step sched m draws) r = some 0 ∧
    nfr_after (model_step sched m draws) r = some 0 := by
  cases hms : model_step sched m draws with
  | error e => rw [hms] at hok; exact absurd hok (by simp [is_ok])
  | ok m' =>
    have hloop : removal_loop (sched (shock_phase m))
        (List.range (sched (shock_phase m)).n_regions) draws =
        Except.ok m' := hms
    obtain ⟨hzero, -, -⟩ :=
      removal_loop_spec _ _ _ _ (fun s _ => hq s) hloop
    obtain ⟨h1, h2⟩ := hzero r (List.mem_range.mpr hr)
    simp [bailout_after, nfr_after, hms, h1, h2]

/-- Witness for C9: a full concrete step on the scenario model (with the
staged scheduler acting as the identity) ends with both counters of region
0 at zero when the reporter collects. -/
theorem C9_collect_sees_zero_witness :
    bailout_after (model_step (fun x => x) m2 (fun _ => [(1/2, 1/3)])) 0 =
      some 0 ∧
    nfr_after (model_step (fun x => x) m2 (fun _ => [(1/2, 1/3)])) 0 =
      some 0 := by
  refine C9_collect_sees_zero (fun x => x) m2 (fun _ => [(1/2, 1/3)]) 0
    ?_ (by decide) (by decide)
  intro s f hf
  have hf' : f ∈ (if s = 0 then [fA] else []) := hf
  by_cases hs : s = 0
  · subst hs
    rw [if_pos rfl] at hf'
    have hfa : f = fA := by simpa using hf'
    subst hfa
    rfl
  · rw [if_neg hs] at hf'
    exact absurd hf' (List.not_mem_nil f)

/-- C2 counterexample: `remove_firm` accrues the exiting firm's net worth
itself — for a firm driven to net worth −10 the bailout counter reads −10
right after the drain, not 10 as claimed. -/
theorem C2_bailout_counterexample :
    bailout_after
      (drain_region m2 ((m2.firms_to_remove 0).zip [(1/2, 1/3)])) 0 =
      some (-10) ∧ ((-10 : ℚ) ≠ 10) := by
  have hdrain : drain_region m2 ((m2.firms_to_remove 0).zip [(1/2, 1/3)]) =
      Except.ok (register_sub (remove_result m2 fA) fA
        (cap_sub (remove_result m2 fA) fA (1/2) (1/3))) := rfl
  constructor
  · rw [hdrain]
    show some ((register_sub (remove_result m2 fA) fA
      (cap_sub (remove_result m2 fA) fA (1/2) (1/3))).governments 0).bailout_cost =
      some (-10 : ℚ)
    norm_num [register_sub, remove_result, updGov, m2, gov0, fA, fB]
  · norm_num

/-- C2 (amended): in the scenario — one region with two capital producers
configured, the bankrupt one holding net worth −10 queued for removal —
draining the queue accrues the removed firm's net worth, so right after the
drain (and before the per-region counter reset) the bailout counter equals
−10 (in general the sum of the net worths of the step's removals, which is
negative for bankrupt firms), and exactly one new capital producer exists,
with market share 1/2; the region block then resets the counters to 0. -/
theorem C2_drain_scenario :
    ∀ u β : ℚ, ∃ m1 sub,
      drain_region m2 ((m2.firms_to_remove 0).zip [(u, β)]) = Except.ok m1 ∧
      (m1.governments 0).bailout_cost = -10 ∧
      m1.firms 0 AgentClass.CapitalFirm = [fB, sub] ∧
      sub.klass = AgentClass.CapitalFirm ∧
      sub.market_share = 1/2 ∧ sub.lifetime = 0 ∧
      bailout_after (region_block m2 0 [(u, β)]) 0 = some 0 ∧
      nfr_after (region_block m2 0 [(u, β)]) 0 = some 0 := by
  intro u β
  have hdrain : drain_region m2 ((m2.firms_to_remove 0).zip [(u, β)]) =
      Except.ok (register_sub (remove_result m2 fA) fA
        (cap_sub (remove_result m2 fA) fA u β)) := rfl
  have hblock : region_block m2 0 [(u, β)] =
      Except.ok
        { register_sub (remove_result m2 fA) fA
            (cap_sub (remove_result m2 fA) fA u β) with
          governments := updGov (register_sub (remove_result m2 fA) fA
              (cap_sub (remove_result m2 fA) fA u β)).governments 0
            { (register_sub (remove_result m2 fA) fA
                (cap_sub (remove_result m2 fA) fA u β)).governments 0 with
              bailout_cost := 0, new_firms_resources := 0 },
          firms_to_remove := fun r => if r = 0 then [] else
            (register_sub (remove_result m2 fA) fA
              (cap_sub (remove_result m2 fA) fA u β)).firms_to_remove r } := by
    unfold region_block
    rw [hdrain]
  refine ⟨_, cap_sub (remove_result m2 fA) fA u β, hdrain, ?_, ?_, rfl, ?_, rfl,
    ?_, ?_⟩
  · norm_num [register_sub, remove_result, updGov, m2, gov0, fA, fB]
  · norm_num [register_sub, remove_result, updFirms, cap_sub, m2, fA, fB]
  · norm_num [cap_sub, remove_result, m2, fA, fB]
  · rw [hblock]
    simp [bailout_after, updGov_same]
  · rw [hblock]
    simp [nfr_after, updGov_same]

/-- C8: every successful `add_subsidiary` increases the region's new-firm
resource counter by exactly the government's average net worth
(independently of the net worth actually assigned to the subsidiary), and
the per-step counters (bailout cost, new-firm resources) are reset to zero
only after the region's queue is fully drained: right after the drain they
hold the whole step's accumulation, and the region block's final reset
zeroes them. -/
theorem C8_counters :
    (∀ (m : CRAB_Model) (firm : Agent) (u β : ℚ),
      isFirmClass firm.klass = true →
      (gov_after_sub m firm u β firm.region).map Government.new_firms_resources =
        some ((m.governments firm.region).new_firms_resources +
          (m.governments firm.region).avg_net_worth)) ∧
    (∀ (m : CRAB_Model) (r : ℕ) (draws : List (ℚ × ℚ)),
      (∀ f ∈ m.firms_to_remove r, f.region = r ∧ isFirmClass f.klass = true ∧
        f ∈ m.firms f.region f.klass) →
      (m.firms_to_remove r).Nodup →
      draws.length = (m.firms_to_remove r).length →
      bailout_after (drain_region m ((m.firms_to_remove r).zip draws)) r =
        some ((m.governments r).bailout_cost +
          ((m.firms_to_remove r).map Agent.net_worth).sum) ∧
      nfr_after (drain_region m ((m.firms_to_remove r).zip draws)) r =
        some ((m.governments r).new_firms_resources +
          ((m.firms_to_remove r).length : ℚ) * (m.governments r).avg_net_worth) ∧
      bailout_after (region_block m r draws) r = some 0 ∧
      nfr_after (region_block m r draws) r = some 0) := by
  constructor
  · intro m firm u β hf
    obtain ⟨sub, hadd, -, -⟩ := add_subsidiary_ok m firm u β hf
    simp [gov_after_sub, hadd, register_sub, updGov_same]
  · intro m r draws hall hnd hlen
    have hfst : ((m.firms_to_remove r).zip draws).map (fun p => p.1) =
        m.firms_to_remove r :=
      List.map_fst_zip _ _ (le_of_eq hlen.symm)
    have h1 : ∀ q ∈ (m.firms_to_remove r).zip draws, q.1.region = r :=
      fun q hq => (hall q.1 (List.of_mem_zip hq).1).1
    have h2 : (((m.firms_to_remove r).zip draws).map fun p => p.1).Nodup := by
      rw [hfst]; exact hnd
    have h3 : ∀ q ∈ (m.firms_to_remove r).zip draws,
        isFirmClass q.1.klass = true :=
      fun q hq => (hall q.1 (List.of_mem_zip hq).1).2.1
    have h4 : ∀ q ∈ (m.firms_to_remove r).zip draws,
        q.1 ∈ m.firms q.1.region q.1.klass :=
      fun q hq => (hall q.1 (List.of_mem_zip hq).1).2.2
    obtain ⟨m1, hd, hb, hnf, hav, hoth, hqq, hnn⟩ :=
      drain_region_spec r ((m.firms_to_remove r).zip draws) m h1 h2 h3 h4
    have hsum : (((m.firms_to_remove r).zip draws).map fun p => p.1.net_worth).sum =
        ((m.firms_to_remove r).map Agent.net_worth).sum := by
      rw [show (((m.firms_to_remove r).zip draws).map fun p => p.1.net_worth) =
        (((m.firms_to_remove r).zip draws).map fun p => p.1).map Agent.net_worth
        from by rw [List.map_map]; rfl, hfst]
    have hqlen : (((m.firms_to_remove r).zip draws).length : ℚ) =
        ((m.firms_to_remove r).length : ℚ) := by
      rw [List.length_zip, hlen, Nat.min_self]
    have hblock : region_block m r draws = Except.ok
        { m1 with
          governments := updGov m1.governments r
            { m1.governments r with
                bailout_cost := 0, new_firms_resources := 0 },
          firms_to_remove := fun s => if s = r then []
            else m1.firms_to_remove s } := by
      unfold region_block
      rw [hd]
    refine ⟨?_, ?_, ?_, ?_⟩
    · rw [hd]
      simp [bailout_after, hb, hsum]
    · rw [hd]
      simp only [nfr_after]
      rw [hnf, hqlen]
    · rw [hblock]
      simp [bailout_after, updGov_same]
    · rw [hblock]
      simp [nfr_after, updGov_same]

/-- Witness for C8: the concrete scenario — one queued firm with net worth
−10, average net worth 100 — shows the accumulated counters after the drain
and their reset after the block. -/
theorem C8_counters_witness :
    ((gov_after_sub m2 fA (1/2) (1/3) fA.region).map
        Government.new_firms_resources =
      some ((m2.governments fA.region).new_firms_resources +
        (m2.governments fA.region).avg_net_worth)) ∧
    (bailout_after
        (drain_region m2 ((m2.firms_to_remove 0).zip [(1/2, 1/3)])) 0 =
      some ((m2.governments 0).bailout_cost +
        ((m2.firms_to_remove 0).map Agent.net_worth).sum) ∧
    nfr_after (drain_region m2 ((m2.firms_to_remove 0).zip [(1/2, 1/3)])) 0 =
      some ((m2.governments 0).new_firms_resources +
        ((m2.firms_to_remove 0).length : ℚ) * (m2.governments 0).avg_net_worth) ∧
    bailout_after (region_block m2 0 [(1/2, 1/3)]) 0 = some 0 ∧
    nfr_after (region_block m2 0 [(1/2, 1/3)]) 0 = some 0) := by
  refine ⟨C8_counters.1 m2 fA (1/2) (1/3) (by decide),
    C8_counters.2 m2 0 [(1/2, 1/3)] ?_ (by decide) (by decide)⟩
  intro f hf
  have hf' : f ∈ [fA] := hf
  have hfa : f = fA := by simpa using hf'
  subst hfa
  exact ⟨rfl, rfl, by decide⟩

end CRAB
